import Mathlib

/-!
# Webway telemetry-record pipeline: formal model

A shallow embedding of the C core in `packages/webway-c/src`
(`automation_data.c`, `kafka_producer.c`, `main.c`) and proofs about it.

Modelling conventions:

* Machine integers are `Nat` / `Int` with explicit bounds (`int32_t` as an
  `Int` in `[-2^31, 2^31)` serialized through its two's-complement bit
  pattern; `uint64_t` as a `Nat` below `2^64`).
* `float` array elements are modelled by their 4-byte IEEE-754 bit patterns
  (a `Nat` below `2^32`): `automation_data_serialize` and
  `automation_data_deserialize` move raw bytes with `memcpy` and never
  interpret the numeric value, so the byte-exact content is what matters.
* Byte buffers are `List Nat` with each element a byte value; the host is
  little-endian (x86), so multi-byte fields are laid out least significant
  byte first, exactly as `memcpy` of the in-memory representation does.
* Fallible C functions (returning `NULL` / `-1`) are `Option`-valued or
  return an explicit status code; `malloc` success is a hypothesis of the
  theorems that need it.
* The numeric values drawn by the generator are modelled over `ℚ`.
-/

namespace Webway

/-- `NORMALIZED_DATA_SIZE` from `automation_data.h`. -/
def NORMALIZED_DATA_SIZE : Nat := 780000

/-- `UNNORMALIZED_DATA_SIZE` from `automation_data.h`. -/
def UNNORMALIZED_DATA_SIZE : Nat := 780000

/-- Total serialized size computed by `automation_data_serialize`:
`sizeof(int32_t) + sizeof(int32_t) + sizeof(uint64_t) + N*4 + N*4` bytes.
This also equals `sizeof(AutomationData)`, the threshold used by
`automation_data_deserialize` (the struct has fields at offsets
0, 4, 8, 16, 16 + 4·N with no padding). -/
def SERIALIZED_SIZE : Nat :=
  4 + 4 + 8 + NORMALIZED_DATA_SIZE * 4 + UNNORMALIZED_DATA_SIZE * 4

/-- `RAND_MAX` of glibc, the upper end of `rand()`'s inclusive range. -/
def RAND_MAX : Nat := 2147483647

/-- Little-endian byte decomposition: `toLE k v` is the list of the `k`
low-order bytes of `v`, least significant first — the layout `memcpy`
produces for a `k`-byte integer on the little-endian host. -/
def toLE : Nat → Nat → List Nat
  | 0, _ => []
  | k + 1, v => v % 256 :: toLE k (v / 256)

/-- Recompose a little-endian byte list into a number. -/
def fromLE : List Nat → Nat
  | [] => 0
  | b :: bs => b + 256 * fromLE bs

/-- Serialize a list of 32-bit sample words into bytes, four bytes per word
in order — the effect of `memcpy(ptr, data->..._data, N * sizeof(float))`. -/
def wordsToBytes : List Nat → List Nat
  | [] => []
  | w :: ws => toLE 4 w ++ wordsToBytes ws

/-- Recover 32-bit sample words from a byte list, four bytes at a time —
the effect of `memcpy(data->..._data, ptr, N * sizeof(float))`. -/
def bytesToWords : List Nat → List Nat
  | b0 :: b1 :: b2 :: b3 :: rest => fromLE [b0, b1, b2, b3] :: bytesToWords rest
  | _ => []

/-- The `int32_t` value range. -/
def int32InRange (i : Int) : Prop := -(2 ^ 31) ≤ i ∧ i < 2 ^ 31

/-- Two's-complement bit pattern of an `int32_t`, as the `Nat` that the four
memory bytes encode. -/
def int32ToNat (i : Int) : Nat := (i % 2 ^ 32).toNat

/-- Read an `int32_t` back from its 32-bit two's-complement bit pattern. -/
def natToInt32 (n : Nat) : Int :=
  if n < 2 ^ 31 then (n : Int) else (n : Int) - 2 ^ 32

/-- The `AutomationData` struct of `automation_data.h`: two `int32_t`
fields, a `uint64_t` timestamp, and two `float[780000]` arrays (elements
modelled as 4-byte bit patterns). -/
structure AutomationData where
  message_key : Int
  sequence_number : Int
  sys_timestamp : Nat
  normalized_data : List Nat
  unnormalized_data : List Nat
deriving DecidableEq

/-- A record representable in the C struct: `int32_t` fields in range, the
timestamp a `uint64_t`, and both arrays holding exactly `N` 32-bit words. -/
def ValidData (d : AutomationData) : Prop :=
  int32InRange d.message_key ∧ int32InRange d.sequence_number ∧
  d.sys_timestamp < 2 ^ 64 ∧
  d.normalized_data.length = NORMALIZED_DATA_SIZE ∧
  (∀ w ∈ d.normalized_data, w < 2 ^ 32) ∧
  d.unnormalized_data.length = UNNORMALIZED_DATA_SIZE ∧
  (∀ w ∈ d.unnormalized_data, w < 2 ^ 32)

/-- The byte buffer written by `automation_data_serialize` (lines 86-102):
`message_key`, `sequence_number`, `sys_timestamp`, all of
`normalized_data`, all of `unnormalized_data`, each field `memcpy`ed at
consecutive offsets with no framing, length prefix, version tag or
checksum. -/
def automation_data_serialize_bytes (d : AutomationData) : List Nat :=
  toLE 4 (int32ToNat d.message_key) ++
  (toLE 4 (int32ToNat d.sequence_number) ++
  (toLE 8 d.sys_timestamp ++
  (wordsToBytes d.normalized_data ++
  wordsToBytes d.unnormalized_data)))

/-- `automation_data_deserialize` (lines 106-134): fails when the buffer is
shorter than `sizeof(AutomationData)` = `SERIALIZED_SIZE`, otherwise reads
the fields back from the same consecutive offsets (0, 4, 8, 16,
16 + 4·N), touching only the first `SERIALIZED_SIZE` bytes. -/
def automation_data_deserialize_bytes (buffer : List Nat) : Option AutomationData :=
  if buffer.length < SERIALIZED_SIZE then none
  else some
    { message_key := natToInt32 (fromLE (buffer.take 4))
      sequence_number := natToInt32 (fromLE ((buffer.drop 4).take 4))
      sys_timestamp := fromLE ((buffer.drop 8).take 8)
      normalized_data :=
        bytesToWords ((buffer.drop 16).take (NORMALIZED_DATA_SIZE * 4))
      unnormalized_data :=
        bytesToWords ((buffer.drop (16 + NORMALIZED_DATA_SIZE * 4)).take
          (UNNORMALIZED_DATA_SIZE * 4)) }

/-! ## Byte-level helper lemmas -/

theorem toLE_length (k v : Nat) : (toLE k v).length = k := by
  induction k generalizing v with
  | zero => rfl
  | succ k ih => simp [toLE, ih]

theorem fromLE_toLE (k v : Nat) (h : v < 256 ^ k) : fromLE (toLE k v) = v := by
  induction k generalizing v with
  | zero =>
    simp [toLE, fromLE]
    omega
  | succ k ih =>
    have hdiv : v / 256 < 256 ^ k := by
      rw [Nat.div_lt_iff_lt_mul (by norm_num)]
      calc v < 256 ^ (k + 1) := h
        _ = 256 ^ k * 256 := by ring
    simp [toLE, fromLE, ih (v / 256) hdiv]
    omega

theorem wordsToBytes_length (l : List Nat) : (wordsToBytes l).length = 4 * l.length := by
  induction l with
  | nil => rfl
  | cons w ws ih => simp [wordsToBytes, toLE_length, ih]; ring

theorem bytesToWords_wordsToBytes (l : List Nat) (h : ∀ w ∈ l, w < 2 ^ 32) :
    bytesToWords (wordsToBytes l) = l := by
  induction l with
  | nil => rfl
  | cons w ws ih =>
    have hw : w < 2 ^ 32 := h w (List.mem_cons_self w ws)
    have hrest : ∀ x ∈ ws, x < 2 ^ 32 := fun x hx => h x (List.mem_cons_of_mem w hx)
    have hfrom : fromLE (toLE 4 w) = w := fromLE_toLE 4 w (by norm_num at hw ⊢; omega)
    simp only [wordsToBytes, toLE, List.cons_append, List.nil_append, bytesToWords,
      List.append]
    rw [ih hrest]
    have h2 : fromLE [w % 256, w / 256 % 256, w / 256 / 256 % 256,
        w / 256 / 256 / 256 % 256] = w := by
      simpa [toLE] using hfrom
    rw [h2]

theorem int32ToNat_lt (i : Int) : int32ToNat i < 2 ^ 32 := by
  unfold int32ToNat
  omega

theorem natToInt32_int32ToNat (i : Int) (h : int32InRange i) :
    natToInt32 (int32ToNat i) = i := by
  obtain ⟨h1, h2⟩ := h
  unfold natToInt32 int32ToNat
  split <;> omega

theorem take_append_eq {α : Type} (l1 l2 : List α) (n : Nat) (h : l1.length = n) :
    (l1 ++ l2).take n = l1 := by
  subst h
  induction l1 with
  | nil => simp
  | cons a l ih => simp [ih]

theorem drop_append_eq {α : Type} (l1 l2 : List α) (n : Nat) (h : l1.length = n) :
    (l1 ++ l2).drop n = l2 := by
  subst h
  induction l1 with
  | nil => simp
  | cons a l ih => simp [ih]

theorem serialize_length (d : AutomationData) (h : ValidData d) :
    (automation_data_serialize_bytes d).length = SERIALIZED_SIZE := by
  obtain ⟨_, _, _, hn, _, hu, _⟩ := h
  simp [automation_data_serialize_bytes, SERIALIZED_SIZE, toLE_length,
    wordsToBytes_length, hn, hu]
  norm_num [NORMALIZED_DATA_SIZE, UNNORMALIZED_DATA_SIZE]

theorem serialize_drop_4 (d : AutomationData) :
    (automation_data_serialize_bytes d).drop 4 =
      toLE 4 (int32ToNat d.sequence_number) ++ (toLE 8 d.sys_timestamp ++
      (wordsToBytes d.normalized_data ++ wordsToBytes d.unnormalized_data)) := by
  unfold automation_data_serialize_bytes
  exact drop_append_eq _ _ 4 (toLE_length 4 _)

theorem serialize_drop_8 (d : AutomationData) :
    (automation_data_serialize_bytes d).drop 8 =
      toLE 8 d.sys_timestamp ++
      (wordsToBytes d.normalized_data ++ wordsToBytes d.unnormalized_data) := by
  unfold automation_data_serialize_bytes
  rw [← List.append_assoc]
  exact drop_append_eq _ _ 8 (by simp [toLE_length])

theorem serialize_drop_16 (d : AutomationData) :
    (automation_data_serialize_bytes d).drop 16 =
      wordsToBytes d.normalized_data ++ wordsToBytes d.unnormalized_data := by
  unfold automation_data_serialize_bytes
  rw [← List.append_assoc, ← List.append_assoc]
  exact drop_append_eq _ _ 16 (by simp [toLE_length])

theorem serialize_drop_tail (d : AutomationData)
    (hn : d.normalized_data.length = NORMALIZED_DATA_SIZE) :
    (automation_data_serialize_bytes d).drop (16 + NORMALIZED_DATA_SIZE * 4) =
      wordsToBytes d.unnormalized_data := by
  unfold automation_data_serialize_bytes
  rw [← List.append_assoc, ← List.append_assoc, ← List.append_assoc]
  refine drop_append_eq _ _ _ ?_
  simp [toLE_length, wordsToBytes_length, hn]
  ring

theorem serialize_take_4 (d : AutomationData) :
    (automation_data_serialize_bytes d).take 4 = toLE 4 (int32ToNat d.message_key) := by
  unfold automation_data_serialize_bytes
  exact take_append_eq _ _ 4 (toLE_length 4 _)

theorem deserialize_serialize (d : AutomationData) (h : ValidData d) :
    automation_data_deserialize_bytes (automation_data_serialize_bytes d) = some d := by
  obtain ⟨hmk, hseq, hts, hn, hnw, hu, huw⟩ := h
  have hlen : (automation_data_serialize_bytes d).length = SERIALIZED_SIZE :=
    serialize_length d ⟨hmk, hseq, hts, hn, hnw, hu, huw⟩
  have hNDlen : (wordsToBytes d.normalized_data).length = NORMALIZED_DATA_SIZE * 4 := by
    rw [wordsToBytes_length, hn]; ring
  have hUDlen : (wordsToBytes d.unnormalized_data).length = UNNORMALIZED_DATA_SIZE * 4 := by
    rw [wordsToBytes_length, hu]; ring
  have t4 : ((automation_data_serialize_bytes d).drop 4).take 4 =
      toLE 4 (int32ToNat d.sequence_number) := by
    rw [serialize_drop_4]
    exact take_append_eq _ _ 4 (toLE_length 4 _)
  have t8 : ((automation_data_serialize_bytes d).drop 8).take 8 =
      toLE 8 d.sys_timestamp := by
    rw [serialize_drop_8]
    exact take_append_eq _ _ 8 (toLE_length 8 _)
  have t16 : ((automation_data_serialize_bytes d).drop 16).take
      (NORMALIZED_DATA_SIZE * 4) = wordsToBytes d.normalized_data := by
    rw [serialize_drop_16]
    exact take_append_eq _ _ _ hNDlen
  have tTail : ((automation_data_serialize_bytes d).drop
      (16 + NORMALIZED_DATA_SIZE * 4)).take (UNNORMALIZED_DATA_SIZE * 4) =
      wordsToBytes d.unnormalized_data := by
    rw [serialize_drop_tail d hn, ← hUDlen, List.take_length]
  have hguard : ¬ ((automation_data_serialize_bytes d).length < SERIALIZED_SIZE) := by
    rw [hlen]; exact Nat.lt_irrefl _
  rw [automation_data_deserialize_bytes, if_neg hguard, serialize_take_4, t4, t8, t16, tTail]
  rw [fromLE_toLE 4 _ (by have := int32ToNat_lt d.message_key; norm_num at this ⊢; omega),
    fromLE_toLE 4 _ (by have := int32ToNat_lt d.sequence_number; norm_num at this ⊢; omega),
    fromLE_toLE 8 _ (by norm_num at hts ⊢; omega),
    natToInt32_int32ToNat _ hmk, natToInt32_int32ToNat _ hseq,
    bytesToWords_wordsToBytes _ hnw, bytesToWords_wordsToBytes _ huw]

/-- A concrete valid record, used to witness the hypotheses of the theorems
below (the field values echo the spec's Scenario A). -/
def d0 : AutomationData :=
  { message_key := 12345
    sequence_number := 1
    sys_timestamp := 1700000000
    normalized_data := List.replicate NORMALIZED_DATA_SIZE 0
    unnormalized_data := List.replicate UNNORMALIZED_DATA_SIZE 0 }

theorem d0_valid : ValidData d0 := by
  refine ⟨by norm_num [d0, int32InRange], by norm_num [d0, int32InRange],
    by norm_num [d0], by simp [d0], ?_, by simp [d0], ?_⟩
  · intro w hw
    have hw0 : w = 0 := List.eq_of_mem_replicate (by simpa [d0] using hw)
    subst hw0; norm_num
  · intro w hw
    have hw0 : w = 0 := List.eq_of_mem_replicate (by simpa [d0] using hw)
    subst hw0; norm_num

/-- C1: decoding the encoding of any valid `AutomationData` record — any
in-range `message_key`, `sequence_number` and `sys_timestamp`, and any two
length-`N` sample arrays — recovers the record exactly, every field and
every array element included. -/
theorem decode_encode_roundtrip (d : AutomationData) (h : ValidData d) :
    automation_data_deserialize_bytes (automation_data_serialize_bytes d) = some d :=
  deserialize_serialize d h

theorem decode_encode_roundtrip_witness :
    ValidData d0 ∧
      automation_data_deserialize_bytes (automation_data_serialize_bytes d0) = some d0 :=
  ⟨d0_valid, decode_encode_roundtrip d0 d0_valid⟩

theorem SERIALIZED_SIZE_eq : SERIALIZED_SIZE = 6240016 := by
  norm_num [SERIALIZED_SIZE, NORMALIZED_DATA_SIZE, UNNORMALIZED_DATA_SIZE]

theorem take_take_of_le {α : Type} (l : List α) {n m : Nat} (h : n ≤ m) :
    (l.take m).take n = l.take n := by
  rw [List.take_take, Nat.min_eq_left h]

theorem drop_take_take {α : Type} (l : List α) {k n m : Nat} (h : k + n ≤ m) :
    ((l.take m).drop k).take n = (l.drop k).take n := by
  rw [List.drop_take, take_take_of_le _ (by omega)]

theorem deserialize_take (buffer : List Nat) :
    automation_data_deserialize_bytes buffer =
      automation_data_deserialize_bytes (buffer.take SERIALIZED_SIZE) := by
  by_cases hlt : buffer.length < SERIALIZED_SIZE
  · rw [List.take_of_length_le (le_of_lt hlt)]
  · push_neg at hlt
    have g1 : ¬ (buffer.length < SERIALIZED_SIZE) := by omega
    have g2 : ¬ ((buffer.take SERIALIZED_SIZE).length < SERIALIZED_SIZE) := by
      rw [List.length_take]
      omega
    have h44 : 4 + 4 ≤ SERIALIZED_SIZE := by rw [SERIALIZED_SIZE_eq]; norm_num
    have h88 : 8 + 8 ≤ SERIALIZED_SIZE := by rw [SERIALIZED_SIZE_eq]; norm_num
    have hN : 16 + NORMALIZED_DATA_SIZE * 4 ≤ SERIALIZED_SIZE := by
      rw [SERIALIZED_SIZE_eq]; norm_num [NORMALIZED_DATA_SIZE]
    have hU : 16 + NORMALIZED_DATA_SIZE * 4 + UNNORMALIZED_DATA_SIZE * 4 ≤ SERIALIZED_SIZE := by
      rw [SERIALIZED_SIZE_eq]; norm_num [NORMALIZED_DATA_SIZE, UNNORMALIZED_DATA_SIZE]
    rw [automation_data_deserialize_bytes, automation_data_deserialize_bytes,
      if_neg g1, if_neg g2,
      take_take_of_le buffer (by rw [SERIALIZED_SIZE_eq]; norm_num),
      drop_take_take buffer h44, drop_take_take buffer h88,
      drop_take_take buffer hN, drop_take_take buffer hU]

/-- C3: `automation_data_deserialize` rejects (returns `NULL`) every buffer
shorter than `SERIALIZED_SIZE` = `sizeof(AutomationData)` bytes, and on any
buffer its result depends only on the buffer's first `SERIALIZED_SIZE`
bytes — it never reads outside (or even past the record portion of) the
supplied buffer. -/
theorem decode_short_buffer_fails (buffer : List Nat) :
    (buffer.length < SERIALIZED_SIZE → automation_data_deserialize_bytes buffer = none) ∧
    automation_data_deserialize_bytes buffer =
      automation_data_deserialize_bytes (buffer.take SERIALIZED_SIZE) := by
  constructor
  · intro h
    rw [automation_data_deserialize_bytes, if_pos h]
  · exact deserialize_take buffer

theorem decode_short_buffer_fails_witness :
    ([] : List Nat).length < SERIALIZED_SIZE ∧
      automation_data_deserialize_bytes [] = none :=
  ⟨by decide, (decode_short_buffer_fails []).1 (by decide)⟩

/-- C4: serialization always succeeds (when its `malloc` succeeds, which the
model assumes) and produces a buffer of exactly
`SERIALIZED_SIZE = 8 + 8 + 2·780000·4 = 6240016` bytes — no framing, length
prefix, version tag or checksum is added (the layout theorem below accounts
for every one of these bytes). -/
theorem encode_exact_length (d : AutomationData) (h : ValidData d) :
    (automation_data_serialize_bytes d).length = SERIALIZED_SIZE ∧
      SERIALIZED_SIZE = 8 + 8 + 2 * 780000 * 4 :=
  ⟨serialize_length d h, by rw [SERIALIZED_SIZE_eq]⟩

theorem encode_exact_length_witness :
    ValidData d0 ∧
      ((automation_data_serialize_bytes d0).length = SERIALIZED_SIZE ∧
        SERIALIZED_SIZE = 8 + 8 + 2 * 780000 * 4) :=
  ⟨d0_valid, encode_exact_length d0 d0_valid⟩

/-- C5: the encoded buffer holds the fields in declared order at fixed
offsets in the fixed (little-endian host) byte order: bytes 0-3 are
`message_key`'s bit pattern, bytes 4-7 `sequence_number`'s, bytes 8-15
`sys_timestamp`'s, the next `N·4` bytes all of `normalized_data` in order,
and the remaining (final) `N·4` bytes all of `unnormalized_data` in
order. -/
theorem encode_field_layout (d : AutomationData) (h : ValidData d) :
    (automation_data_serialize_bytes d).take 4 = toLE 4 (int32ToNat d.message_key) ∧
    ((automation_data_serialize_bytes d).drop 4).take 4 =
      toLE 4 (int32ToNat d.sequence_number) ∧
    ((automation_data_serialize_bytes d).drop 8).take 8 = toLE 8 d.sys_timestamp ∧
    ((automation_data_serialize_bytes d).drop 16).take (NORMALIZED_DATA_SIZE * 4) =
      wordsToBytes d.normalized_data ∧
    (automation_data_serialize_bytes d).drop (16 + NORMALIZED_DATA_SIZE * 4) =
      wordsToBytes d.unnormalized_data := by
  obtain ⟨hmk, hseq, hts, hn, hnw, hu, huw⟩ := h
  have hNDlen : (wordsToBytes d.normalized_data).length = NORMALIZED_DATA_SIZE * 4 := by
    rw [wordsToBytes_length, hn]; ring
  refine ⟨serialize_take_4 d, ?_, ?_, ?_, serialize_drop_tail d hn⟩
  · rw [serialize_drop_4]
    exact take_append_eq _ _ 4 (toLE_length 4 _)
  · rw [serialize_drop_8]
    exact take_append_eq _ _ 8 (toLE_length 8 _)
  · rw [serialize_drop_16]
    exact take_append_eq _ _ _ hNDlen

theorem encode_field_layout_witness :
    ValidData d0 ∧
      (automation_data_serialize_bytes d0).take 4 = toLE 4 (int32ToNat d0.message_key) :=
  ⟨d0_valid, (encode_field_layout d0 d0_valid).1⟩

/-! ## RecordGenerator: the numeric values `automation_data_new` draws

`rand()` returns a value in the inclusive range `[0, RAND_MAX]`; the model
takes the stream of draws as an argument. The float expression
`(float)rand() / (float)RAND_MAX` is modelled exactly over `ℚ`; note that
at the endpoint `rand() = RAND_MAX` IEEE single-precision arithmetic also
yields exactly `1.0f` (both `(float)2147483647` and `(float)RAND_MAX`
round to `2^31`), so the endpoint behaviour below is not an artifact of
the exact-arithmetic model. -/

/-- The value stored in `normalized_data[i]`:
`(float)rand() / (float)RAND_MAX` (line 31). -/
def normalized_value (r : Nat) : ℚ := (r : ℚ) / (RAND_MAX : ℚ)

/-- The value stored in `unnormalized_data[i]`:
`((float)rand() / (float)RAND_MAX) * 2000.0f - 1000.0f` (line 36). -/
def unnormalized_value (r : Nat) : ℚ := (r : ℚ) / (RAND_MAX : ℚ) * 2000 - 1000

/-- The two sample arrays `automation_data_new` fills (lines 29-37): the
first `N` draws feed `normalized_data`, the next `N` feed
`unnormalized_data`. -/
def automation_data_new_values (draws : Nat → Nat) : List ℚ × List ℚ :=
  ((List.range NORMALIZED_DATA_SIZE).map fun i => normalized_value (draws i),
   (List.range UNNORMALIZED_DATA_SIZE).map fun i =>
     unnormalized_value (draws (NORMALIZED_DATA_SIZE + i)))

/-- C2: the claimed half-open ranges fail at the top of `rand()`'s range.
When a draw equals `RAND_MAX` (a legal `rand()` value), the generated
normalized sample is exactly `1`, outside `[0, 1)`, and the unnormalized
sample is exactly `1000`, outside `[-1000, 1000)` — contradicting the
repository's own range test (`run_tests`, Test 2 in `main.c`). -/
theorem generator_range_violation :
    normalized_value RAND_MAX = 1 ∧
    unnormalized_value RAND_MAX = 1000 ∧
    (∃ x ∈ (automation_data_new_values fun _ => RAND_MAX).1, ¬ (x < 1)) ∧
    (∃ x ∈ (automation_data_new_values fun _ => RAND_MAX).2, ¬ (x < 1000)) := by
  have h1 : normalized_value RAND_MAX = 1 := by
    norm_num [normalized_value, RAND_MAX]
  have h2 : unnormalized_value RAND_MAX = 1000 := by
    norm_num [unnormalized_value, RAND_MAX]
  refine ⟨h1, h2, ⟨1, ?_, by norm_num⟩, ⟨1000, ?_, by norm_num⟩⟩
  · simp only [automation_data_new_values]
    exact List.mem_map.mpr
      ⟨0, List.mem_range.mpr (by norm_num [NORMALIZED_DATA_SIZE]), h1⟩
  · simp only [automation_data_new_values]
    exact List.mem_map.mpr
      ⟨0, List.mem_range.mpr (by norm_num [UNNORMALIZED_DATA_SIZE]), h2⟩

/-! ## Deterministic generator variant -/

/-- Modelled from the spec: the source has no deterministic generator
variant — `automation_data_new` takes only `message_key` and
`sequence_number`, captures `gettimeofday` for the timestamp and seeds
`rand` from `time(NULL)` — so the spec's required variant ("accepts an
explicit timestamp and seed for reproducible testing; it must produce
byte-identical output for identical inputs") is modelled here: a PRNG
stream fully determined by the explicit seed (a linear-congruential step,
standing in for a deterministically seeded `rand`). -/
def rand_from_seed (seed : Nat) : Nat → Nat
  | 0 => (1103515245 * seed + 12345) % 2 ^ 31
  | n + 1 => (1103515245 * rand_from_seed seed n + 12345) % 2 ^ 31

/-- Modelled from the spec: deterministic variant of `automation_data_new`
with an explicit timestamp (stored verbatim) and explicit seed (the sole
source of the sample words). -/
def automation_data_new_with_seed (message_key sequence_number : Int)
    (timestamp : Nat) (seed : Nat) : AutomationData :=
  { message_key := message_key
    sequence_number := sequence_number
    sys_timestamp := timestamp
    normalized_data := (List.range NORMALIZED_DATA_SIZE).map (rand_from_seed seed)
    unnormalized_data := (List.range UNNORMALIZED_DATA_SIZE).map
      (fun i => rand_from_seed seed (NORMALIZED_DATA_SIZE + i)) }

/-- C6: the deterministic variant produces identical records — hence
byte-identical encodings — whenever its four inputs coincide. -/
theorem deterministic_generator_reproducible (mk sq : Int) (ts seed : Nat)
    (r1 r2 : AutomationData)
    (h1 : r1 = automation_data_new_with_seed mk sq ts seed)
    (h2 : r2 = automation_data_new_with_seed mk sq ts seed) :
    r1 = r2 ∧
      automation_data_serialize_bytes r1 = automation_data_serialize_bytes r2 := by
  subst h1
  subst h2
  exact ⟨rfl, rfl⟩

theorem deterministic_generator_reproducible_witness :
    automation_data_new_with_seed 12345 1 1700000000 42 =
      automation_data_new_with_seed 12345 1 1700000000 42 ∧
    automation_data_serialize_bytes (automation_data_new_with_seed 12345 1 1700000000 42) =
      automation_data_serialize_bytes (automation_data_new_with_seed 12345 1 1700000000 42) :=
  deterministic_generator_reproducible 12345 1 1700000000 42 _ _ rfl rfl

/-! ## BrokerProducer -/

/-- Which operations of the underlying client succeed during
`kafka_producer_create`: the two allocations, acceptance of each of the
five configuration settings, and `rd_kafka_new`. (The delivery-callback
registration `rd_kafka_conf_set_dr_msg_cb` returns `void` and cannot be
rejected.) -/
structure KafkaClientEnv where
  malloc_ok : Bool
  conf_new_ok : Bool
  accept_bootstrap_servers : Bool
  accept_message_max_bytes : Bool
  accept_compression_type : Bool
  accept_batch_size : Bool
  accept_linger_ms : Bool
  rd_kafka_new_ok : Bool
deriving DecidableEq

/-- `kafka_producer_create` (lines 19-62): allocates the handle, creates a
configuration, sets `bootstrap.servers` (checking the result), sets
`message.max.bytes`, `compression.type`, `batch.size` and `linger.ms`
*discarding their results*, registers the delivery callback, and calls
`rd_kafka_new` (checking the result). `none` models the `NULL` return. -/
def kafka_producer_create (env : KafkaClientEnv) : Option Unit :=
  if !env.malloc_ok then none
  else if !env.conf_new_ok then none
  else if !env.accept_bootstrap_servers then none
  else if !env.rd_kafka_new_ok then none
  else some ()

/-- An environment in which the client rejects every one of the four
settings whose return codes `kafka_producer_create` discards. -/
def rejecting_env : KafkaClientEnv :=
  { malloc_ok := true
    conf_new_ok := true
    accept_bootstrap_servers := true
    accept_message_max_bytes := false
    accept_compression_type := false
    accept_batch_size := false
    accept_linger_ms := false
    rd_kafka_new_ok := true }

/-- C7 counterexample: with the message-size ceiling, compression codec,
batch-size and linger settings all rejected by the client,
`kafka_producer_create` still returns a usable (non-`NULL`) handle,
because it discards those calls' return codes. -/
theorem producer_create_ignores_rejected_settings :
    rejecting_env.accept_message_max_bytes = false ∧
    rejecting_env.accept_compression_type = false ∧
    rejecting_env.accept_batch_size = false ∧
    rejecting_env.accept_linger_ms = false ∧
    kafka_producer_create rejecting_env = some () := by
  decide

/-- C7 (amended): construction returns `NULL` exactly when handle
allocation, configuration-object creation, the `bootstrap.servers` setting
or `rd_kafka_new` fails; rejection of the message-size ceiling,
compression codec, batch-size or linger settings is ignored (and the
delivery-callback registration cannot be rejected), so such a partial
configuration failure still yields a usable handle. -/
theorem producer_create_none_iff (env : KafkaClientEnv) :
    kafka_producer_create env = none ↔
      (env.malloc_ok = false ∨ env.conf_new_ok = false ∨
        env.accept_bootstrap_servers = false ∨ env.rd_kafka_new_ok = false) := by
  obtain ⟨m, c, b, _, _, _, _, k⟩ := env
  cases m <;> cases c <;> cases b <;> cases k <;> simp [kafka_producer_create]

/-- Decimal digits of a natural number, most significant first — the digit
sequence `snprintf(key, 32, "%d", n)` emits for the magnitude. -/
def nat_digits (n : Nat) : List Nat :=
  if n < 10 then [n]
  else nat_digits (n / 10) ++ [n % 10]
termination_by n
decreasing_by exact Nat.div_lt_self (by omega) (by omega)

/-- The number a most-significant-first decimal digit list denotes. -/
def digits_val (l : List Nat) : Nat := l.foldl (fun a d => 10 * a + d) 0

/-- The ASCII character of one decimal digit. -/
def digit_char (d : Nat) : Char := Char.ofNat (48 + d)

/-- The string `snprintf(key, sizeof(key), "%d", i)` writes for an
`int32_t` (line 92): an optional minus sign followed by the decimal digits
of the magnitude. -/
def int_to_decimal_string (i : Int) : String :=
  if i < 0 then String.mk ('-' :: (nat_digits i.natAbs).map digit_char)
  else String.mk ((nat_digits i.natAbs).map digit_char)

/-- A message handed to `rd_kafka_producev` (lines 95-102): the topic, the
key bytes (`RD_KAFKA_V_KEY(key, strlen(key))`), and the value bytes
(`RD_KAFKA_V_VALUE(buffer, size)`). -/
structure KafkaMessage where
  topic : String
  key : String
  value : List Nat
deriving DecidableEq

/-- `kafka_send_automation_data` (lines 72-117): `NULL` arguments are
`none`; the serialize `malloc` is assumed to succeed; `enqueue_ok` is the
outcome of `rd_kafka_producev` (on failure the buffer is freed and `-1`
returned with nothing enqueued). Returns the C status code and the
enqueued message, if any. -/
def kafka_send_automation_data (producer : Option Unit)
    (data : Option AutomationData) (topic_name : Option String)
    (enqueue_ok : Bool) : Int × Option KafkaMessage :=
  match producer, data, topic_name with
  | some _, some d, some t =>
    if enqueue_ok then
      (0, some { topic := t
                 key := int_to_decimal_string d.sequence_number
                 value := automation_data_serialize_bytes d })
    else (-1, none)
  | _, _, _ => (-1, none)

/-- `kafka_producer_flush` (lines 119-125): `NULL` producer yields `-1`,
otherwise the underlying `rd_kafka_flush` result is returned unchanged. -/
def kafka_producer_flush (producer : Option Unit) (timeout_ms : Int)
    (client_flush_result : Int) : Int :=
  match producer, timeout_ms with
  | none, _ => -1
  | some _, _ => client_flush_result

/-- `automation_data_serialize`'s argument check (lines 71-74): the three
pointer arguments modelled by presence; the result pairs the C status code
with what was written through the output parameters (`none` = untouched). -/
def automation_data_serialize_checked (data : Option AutomationData)
    (buffer_ptr_ok size_ptr_ok : Bool) : Int × Option (List Nat) :=
  match data, buffer_ptr_ok, size_ptr_ok with
  | some d, true, true => (0, some (automation_data_serialize_bytes d))
  | _, _, _ => (-1, none)

/-- `automation_data_deserialize`'s argument check (line 107): a `NULL`
buffer yields `NULL` before any read. -/
def automation_data_deserialize_checked (buffer : Option (List Nat)) :
    Option AutomationData :=
  match buffer with
  | none => none
  | some bs => automation_data_deserialize_bytes bs

theorem digits_val_append_digit (l : List Nat) (d : Nat) :
    digits_val (l ++ [d]) = 10 * digits_val l + d := by
  simp [digits_val, List.foldl_append]

theorem digits_val_nat_digits (n : Nat) : digits_val (nat_digits n) = n := by
  induction n using Nat.strong_induction_on with
  | _ n ih =>
    rw [nat_digits]
    split
    · simp [digits_val]
    · rename_i h
      rw [digits_val_append_digit, ih (n / 10) (Nat.div_lt_self (by omega) (by omega))]
      omega

theorem nat_digits_lt_ten (n : Nat) : ∀ d ∈ nat_digits n, d < 10 := by
  induction n using Nat.strong_induction_on with
  | _ n ih =>
    intro d hd
    rw [nat_digits] at hd
    split at hd
    · rename_i h
      simp at hd
      omega
    · rcases List.mem_append.mp hd with h1 | h2
      · exact ih (n / 10) (Nat.div_lt_self (by omega) (by omega)) d h1
      · simp at h2
        omega

theorem nat_digits_ne_nil (n : Nat) : nat_digits n ≠ [] := by
  rw [nat_digits]
  split <;> simp

theorem nat_digits_head_ne_zero (n : Nat) (hn : n ≠ 0) :
    (nat_digits n).head? ≠ some 0 := by
  induction n using Nat.strong_induction_on with
  | _ n ih =>
    rw [nat_digits]
    split
    · simpa using hn
    · rename_i h
      obtain ⟨a, l, e⟩ := List.exists_cons_of_ne_nil (nat_digits_ne_nil (n / 10))
      have hh := ih (n / 10) (Nat.div_lt_self (by omega) (by omega)) (by omega)
      rw [e] at hh ⊢
      simpa using hh

/-- C8: the message enqueued by `kafka_send_automation_data` carries the
caller's topic, a key that is exactly the decimal-string form of the
record's `sequence_number` (an optional minus sign, then decimal digits
denoting the magnitude, without leading zeros), and a value that is exactly
the record's `SERIALIZED_SIZE`-byte serialization. -/
theorem publish_key_value_contract (d : AutomationData) (t : String)
    (h : ValidData d) :
    ∃ msg : KafkaMessage,
      (kafka_send_automation_data (some ()) (some d) (some t) true).2 = some msg ∧
      msg.topic = t ∧
      msg.key = int_to_decimal_string d.sequence_number ∧
      (d.sequence_number < 0 →
        msg.key.data = '-' :: (nat_digits d.sequence_number.natAbs).map digit_char) ∧
      (0 ≤ d.sequence_number →
        msg.key.data = (nat_digits d.sequence_number.natAbs).map digit_char) ∧
      digits_val (nat_digits d.sequence_number.natAbs) = d.sequence_number.natAbs ∧
      (∀ dg ∈ nat_digits d.sequence_number.natAbs, dg < 10) ∧
      (d.sequence_number ≠ 0 →
        (nat_digits d.sequence_number.natAbs).head? ≠ some 0) ∧
      msg.value = automation_data_serialize_bytes d ∧
      msg.value.length = SERIALIZED_SIZE := by
  refine ⟨_, rfl, rfl, rfl, ?_, ?_, digits_val_nat_digits _, nat_digits_lt_ten _,
    ?_, rfl, serialize_length d h⟩
  · intro hneg
    rw [int_to_decimal_string, if_pos hneg]
  · intro hpos
    rw [int_to_decimal_string, if_neg (by omega)]
  · intro hne
    exact nat_digits_head_ne_zero _ (by omega)

theorem publish_key_value_contract_witness :
    ValidData d0 ∧
      ∃ msg : KafkaMessage,
        (kafka_send_automation_data (some ()) (some d0)
          (some "automation-data") true).2 = some msg ∧
        msg.topic = "automation-data" ∧
        msg.key = int_to_decimal_string d0.sequence_number ∧
        (d0.sequence_number < 0 →
          msg.key.data = '-' :: (nat_digits d0.sequence_number.natAbs).map digit_char) ∧
        (0 ≤ d0.sequence_number →
          msg.key.data = (nat_digits d0.sequence_number.natAbs).map digit_char) ∧
        digits_val (nat_digits d0.sequence_number.natAbs) = d0.sequence_number.natAbs ∧
        (∀ dg ∈ nat_digits d0.sequence_number.natAbs, dg < 10) ∧
        (d0.sequence_number ≠ 0 →
          (nat_digits d0.sequence_number.natAbs).head? ≠ some 0) ∧
        msg.value = automation_data_serialize_bytes d0 ∧
        msg.value.length = SERIALIZED_SIZE :=
  ⟨d0_valid, publish_key_value_contract d0 "automation-data" d0_valid⟩

/-! ## Orchestrator -/

/-- The size-accounting accumulation in `run_kafka_demo`'s loop (`main.c`
lines 126-157): for each iteration `i` of `0 .. num_messages - 1` the
record `gen i` is serialized once purely for accounting and its byte count
added to `total_raw_size` (allocation and serialization are assumed to
succeed, as the claim stipulates — their failure paths skip the
addition). -/
def run_kafka_demo_total_bytes (gen : Nat → AutomationData)
    (num_messages : Nat) : Nat :=
  (List.range num_messages).foldl
    (fun acc i => acc + (automation_data_serialize_bytes (gen i)).length) 0

/-- C9: over the demo's 10 iterations with per-iteration records `gen 0`
to `gen 9` all representable, the accumulated byte total is exactly
`10 · SERIALIZED_SIZE`. -/
theorem demo_total_bytes_eq (gen : Nat → AutomationData)
    (h : ∀ i, i < 10 → ValidData (gen i)) :
    run_kafka_demo_total_bytes gen 10 = 10 * SERIALIZED_SIZE := by
  have hL : ∀ i, i < 10 →
      (automation_data_serialize_bytes (gen i)).length = SERIALIZED_SIZE :=
    fun i hi => serialize_length (gen i) (h i hi)
  have e : List.range 10 = [0, 1, 2, 3, 4, 5, 6, 7, 8, 9] := by rfl
  rw [run_kafka_demo_total_bytes, e]
  simp only [List.foldl]
  rw [hL 0 (by norm_num), hL 1 (by norm_num), hL 2 (by norm_num),
    hL 3 (by norm_num), hL 4 (by norm_num), hL 5 (by norm_num),
    hL 6 (by norm_num), hL 7 (by norm_num), hL 8 (by norm_num),
    hL 9 (by norm_num)]
  omega

theorem demo_total_bytes_eq_witness :
    (∀ i, i < 10 → ValidData ((fun _ => d0) i)) ∧
      run_kafka_demo_total_bytes (fun _ => d0) 10 = 10 * SERIALIZED_SIZE :=
  ⟨fun _ _ => d0_valid, demo_total_bytes_eq (fun _ => d0) (fun _ _ => d0_valid)⟩

/-- C10: every `NULL`-argument path returns the error outcome without
touching the missing object or any output parameter: serialize returns
`-1` (writing nothing) when its record, buffer pointer or size pointer is
missing; deserialize returns `NULL` when its buffer is missing; publish
returns `-1` (enqueuing nothing) when its producer, record or topic is
missing; flush returns `-1` when its producer is missing. -/
theorem null_argument_handling :
    (∀ b s, automation_data_serialize_checked none b s = (-1, none)) ∧
    (∀ d s, automation_data_serialize_checked (some d) false s = (-1, none)) ∧
    (∀ d b, automation_data_serialize_checked (some d) b false = (-1, none)) ∧
    automation_data_deserialize_checked none = none ∧
    (∀ d t e, kafka_send_automation_data none d t e = (-1, none)) ∧
    (∀ p t e, kafka_send_automation_data p none t e = (-1, none)) ∧
    (∀ p d e, kafka_send_automation_data p d none e = (-1, none)) ∧
    (∀ t r, kafka_producer_flush none t r = -1) := by
  refine ⟨?_, ?_, ?_, rfl, ?_, ?_, ?_, ?_⟩
  · intro b s
    cases b <;> cases s <;> rfl
  · intro d s
    cases s <;> rfl
  · intro d b
    cases b <;> rfl
  · intro d t e
    cases d <;> cases t <;> rfl
  · intro p t e
    cases p <;> cases t <;> rfl
  · intro p d e
    cases p <;> cases d <;> rfl
  · intro t r
    rfl

end Webway
